import Mathlib

/-!
Verification of the Apteryx client library (src/apteryx.c) against its
natural-language specification.  The repository's src/ directory contains the
client library and its unit tests only; the broker (server-side database,
watcher registry and notification loop) is not part of src/, so those pieces
are modelled from the specification and are marked as such in their doc
comments.  Everything else below is a direct shallow embedding of the C code
in src/apteryx.c.

Values are opaque byte strings, modelled as lists of characters.  C output
parameters become explicit fields of result structures; a NULL pointer is
modelled as `none`.  The RPC layer is modelled by an explicit outcome
parameter: the connection may fail, the response may never arrive, or a reply
arrives carrying the server's bytes.
-/

namespace Apteryx

/-- Opaque byte strings (values on the wire). -/
abbrev Bytes := List Char

/-- The check `path[0] == '/'` used by set, get, prune, provide and watch
(src/apteryx.c lines 239, 314, 422, 605, 649).  An empty C string has
`path[0] == NUL`, so the empty string fails this check. -/
def startsWithSlash (p : String) : Bool := p.data.head? = some '/'

/-- The check `path[strlen(path)-1] == '/'` used by apteryx_search. -/
def endsWithSlash (p : String) : Bool := p.data.getLast? = some '/'

/-- The check `strstr(path, "//") != NULL` used by apteryx_search. -/
def hasDoubleSlash : List Char → Bool
  | '/' :: '/' :: _ => true
  | _ :: rest => hasDoubleSlash rest
  | [] => false

/-- The special-root test shared by apteryx_search and apteryx_watch:
the path equals "/", "/*", "*" or has length 0. -/
def isRootForm (p : String) : Bool :=
  p = "/" || p = "/*" || p = "*" || p.length = 0

/-- Outcome of an RPC exchange whose reply is a bare OK: the connection
may fail, the OK closure may never run, or the request is acknowledged. -/
inductive OkRpc
  | connFail
  | noResponse
  | ok
deriving DecidableEq

/-- Outcome of a GET RPC exchange: connection failure, no response at all,
a response delivered with a NULL result (error), or a reply carrying the
value bytes (empty bytes mean the path is absent). -/
inductive GetRpc
  | connFail
  | noResponse
  | replyError
  | reply (bytes : Bytes)
deriving DecidableEq

/-- Result of a client call that returns a bool: the returned value and
whether execution reached the IPC section (i.e. passed path validation). -/
structure CallResult where
  ret : Bool
  reachedRpc : Bool
deriving DecidableEq

/-- Shallow embedding of apteryx_set (src/apteryx.c:304-341).  The only
client-side path validation is `path[0] != '/'`; on validation failure the
call returns false before any RPC. -/
def apteryx_set (path : String) (value : Bytes) (rpc : OkRpc) : CallResult :=
  if startsWithSlash path = false then ⟨false, false⟩
  else
    match rpc with
    | .connFail => ⟨false, true⟩
    | .noResponse => ⟨false, true⟩
    | .ok => ⟨true, true⟩

/-- Shallow embedding of apteryx_prune (src/apteryx.c:229-264). -/
def apteryx_prune (path : String) (rpc : OkRpc) : CallResult :=
  if startsWithSlash path = false then ⟨false, false⟩
  else
    match rpc with
    | .connFail => ⟨false, true⟩
    | .noResponse => ⟨false, true⟩
    | .ok => ⟨true, true⟩

/-- Shallow embedding of apteryx_provide (src/apteryx.c:639-681); cb and
priv are the 64-bit handles placed in the message. -/
def apteryx_provide (path : String) (cb priv : Nat) (rpc : OkRpc) : CallResult :=
  if startsWithSlash path = false then ⟨false, false⟩
  else
    match rpc with
    | .connFail => ⟨false, true⟩
    | .noResponse => ⟨false, true⟩
    | .ok => ⟨true, true⟩

/-- Observable outcome of apteryx_get at the caller: the boolean return,
the two output parameters *value and *size, and whether execution reached
the IPC section. -/
structure GetOutcome where
  ret : Bool
  value : Option Bytes
  size : Nat
  reachedRpc : Bool
deriving DecidableEq

/-- Shallow embedding of handle_get_response (src/apteryx.c:395-410): the
closure stores the reply bytes only when their length is non-zero; a NULL
result leaves the blank value in place.  Returns the (value, length) pair
written into get_data_t. -/
def handle_get_response (bytes : Bytes) : Option Bytes × Nat :=
  if bytes.length ≠ 0 then (some bytes, bytes.length) else (none, 0)

/-- Shallow embedding of apteryx_get (src/apteryx.c:412-455).  `prevValue`
and `prevSize` are the caller's values of *value and *size before the call:
the code assigns `*value = NULL; *size = 0` only after path validation
passes.  The boolean result is `*value != NULL`. -/
def apteryx_get (path : String) (prevValue : Option Bytes) (prevSize : Nat)
    (rpc : GetRpc) : GetOutcome :=
  if startsWithSlash path = false then ⟨false, prevValue, prevSize, false⟩
  else
    match rpc with
    | .connFail => ⟨false, none, 0, true⟩
    | .noResponse => ⟨false, none, 0, true⟩
    | .replyError => ⟨false, none, 0, true⟩
    | .reply bytes =>
        let r := handle_get_response bytes
        ⟨r.1.isSome, r.1, r.2, true⟩

/-- Result of the path validation performed by apteryx_search
(src/apteryx.c:548-566): either proceed to the RPC with a (possibly
normalized) root, or reject and return NULL. -/
inductive SearchCheck
  | proceed (root : String)
  | reject
deriving DecidableEq

/-- Shallow embedding of the validation in apteryx_search: NULL, "/",
"/*", "*" and the empty string are normalized to the empty root; otherwise
the path must start with '/', end with '/' and contain no "//". -/
def apteryx_search_validate (path : Option String) : SearchCheck :=
  match path with
  | none => .proceed ""
  | some p =>
    if isRootForm p then .proceed ""
    else if !(startsWithSlash p) || !(endsWithSlash p) ||
            hasDoubleSlash p.data then .reject
    else .proceed p

/-- The watch registration message (Apteryx__Watch) sent on the wire by
apteryx_watch: path, client id (process id), and the cb/priv handles. -/
structure WatchReg where
  path : String
  id : Nat
  cb : Nat
  priv : Nat
deriving DecidableEq

/-- Observable outcome of apteryx_watch: boolean return, whether execution
reached the IPC section, and the registration message delivered to the
broker (none when validation fails or the RPC fails). -/
structure WatchCall where
  ret : Bool
  reachedRpc : Bool
  sent : Option WatchReg
deriving DecidableEq

/-- Shallow embedding of apteryx_watch (src/apteryx.c:588-637).  NULL,
"/", "/*", "*" and the empty string are replaced by the match-everything
pattern "/*"; the remaining validation is `path[0] == '/'`.  The message
carries the cb and priv handles verbatim. -/
def apteryx_watch (path : Option String) (cb priv pid : Nat) (rpc : OkRpc) :
    WatchCall :=
  let p := match path with
    | none => "/*"
    | some q => if isRootForm q then "/*" else q
  if startsWithSlash p = false then ⟨false, false, none⟩
  else
    match rpc with
    | .connFail => ⟨false, true, none⟩
    | .noResponse => ⟨false, true, none⟩
    | .ok => ⟨true, true, some ⟨p, pid, cb, priv⟩⟩

/-- An inbound watch-notification message (Apteryx__Watch) as received by
the client listener: path, id, cb, priv and the value bytes. -/
structure WatchMsg where
  path : String
  id : Nat
  cb : Nat
  priv : Nat
  value : Bytes
deriving DecidableEq

/-- A user-callback invocation as observed by the registered callback:
the path, the priv handle, and the value pointer/size pair (a NULL value
pointer is `none`). -/
structure CbCall where
  path : String
  priv : Nat
  value : Option Bytes
  size : Nat
deriving DecidableEq

/-- Shallow embedding of the client-side dispatcher apteryx__watch
(src/apteryx.c:45-74): when the message's cb handle is non-null the
callback is invoked with the message's path, priv and value; a zero-length
value is delivered as a NULL pointer with size 0. -/
def apteryx__watch (msg : WatchMsg) : Option CbCall :=
  let v : Option Bytes × Nat :=
    if msg.value.length ≠ 0 then (some msg.value, msg.value.length)
    else (none, 0)
  if msg.cb ≠ 0 then some ⟨msg.path, msg.priv, v.1, v.2⟩ else none

/-- Library-wide client state: the init reference count, whether the
listener thread is running, and the process-wide debug flag
(src/apteryx.c:37-42). -/
structure ClientState where
  ref_count : Int
  thread_running : Bool
  debug : Bool
deriving DecidableEq

/-- Shallow embedding of apteryx_init (src/apteryx.c:184-197): increments
the reference count, ORs the argument into the debug flag, and returns
true unconditionally. -/
def apteryx_init (debug_enabled : Bool) (s : ClientState) : Bool × ClientState :=
  (true, { s with ref_count := s.ref_count + 1,
                  debug := s.debug || debug_enabled })

/-- Observable outcome of apteryx_shutdown: boolean return, the new state,
and whether the teardown branch (stop_client_thread) was executed. -/
structure ShutdownResult where
  ret : Bool
  state : ClientState
  stoppedListener : Bool
deriving DecidableEq

/-- Shallow embedding of apteryx_shutdown (src/apteryx.c:199-227): fails
when the reference count is not positive; otherwise decrements it, and
only when the count reaches zero stops the listener thread. -/
def apteryx_shutdown (s : ClientState) : ShutdownResult :=
  if s.ref_count ≤ 0 then ⟨false, s, false⟩
  else
    let s' : ClientState := { s with ref_count := s.ref_count - 1 }
    if s'.ref_count > 0 then ⟨true, s', false⟩
    else ⟨true, { s' with thread_running := false }, true⟩

/-- A recorded lifecycle call (apteryx_init or apteryx_shutdown), for
stating state invariants over call sequences. -/
inductive LibOp
  | opInit (d : Bool)
  | opShutdown
deriving DecidableEq

/-- State transition of one library lifecycle call. -/
def applyOp (s : ClientState) : LibOp → ClientState
  | .opInit d => (apteryx_init d s).2
  | .opShutdown => (apteryx_shutdown s).state

/-- State after a sequence of lifecycle calls. -/
def applyOps (s : ClientState) (ops : List LibOp) : ClientState :=
  ops.foldl applyOp s

/-- C atoi digit loop: accumulate decimal digits, stop at the first
non-digit. -/
def atoiLoop : List Char → Int → Int
  | c :: rest, acc =>
      if c.isDigit then atoiLoop rest (acc * 10 + ((c.toNat : Int) - 48))
      else acc
  | [], acc => acc

/-- C isspace for the characters atoi skips. -/
def isSpaceChar (c : Char) : Bool :=
  c = ' ' || c = '\t' || c = '\n' || c = '\r' || c = '\x0b' || c = '\x0c'

/-- Shallow embedding of C atoi: skip leading whitespace, an optional
sign, then decimal digits up to the first non-digit. -/
def atoi (s : Bytes) : Int :=
  match s.dropWhile isSpaceChar with
  | '-' :: rest => - atoiLoop rest 0
  | '+' :: rest => atoiLoop rest 0
  | rest => atoiLoop rest 0

/-- The value bytes apteryx_set_int stores (src/apteryx.c:343-365):
`asprintf("%d", value)` followed by the NUL terminator (size len+1). -/
def int_encode (n : Int) : Bytes := (toString n).data ++ ['\x00']

/-- Shallow embedding of apteryx_get_int (src/apteryx.c:457-480) for an
already-assembled full path: the result starts at -1 and is replaced by
`atoi` of the value only when apteryx_get returns true with a non-NULL
value. -/
def apteryx_get_int (path : String) (rpc : GetRpc) : Int :=
  let r := apteryx_get path none 0 rpc
  if r.ret then
    match r.value with
    | some v => atoi v
    | none => -1
  else -1

/-- Modelled from the spec: the broker's path database.  src/ contains only
the client library; the server-side store is missing.  Spec section 4.1: set
with a zero-length value deletes the entry, otherwise it replaces any value
stored at the path; one entry per canonical path. -/
def db_set (db : List (String × Bytes)) (p : String) (v : Bytes) :
    List (String × Bytes) :=
  if v = [] then db.filter (fun e => e.1 != p)
  else (p, v) :: db.filter (fun e => e.1 != p)

/-- Modelled from the spec: the broker's database read and its GET reply.
Spec sections 4.1 and 6: the reply carries the stored bytes if present,
else empty bytes (empty bytes mean absent on the wire). -/
def db_get (db : List (String × Bytes)) (p : String) : Bytes :=
  match db.find? (fun e => e.1 == p) with
  | some e => e.2
  | none => []

/-- The first list is a leading segment of the second. -/
def listStarts : List Char → List Char → Bool
  | [], _ => true
  | _ :: _, [] => false
  | a :: as, b :: bs => a = b && listStarts as bs

/-- The list ends in the two characters '/' then '*'. -/
def endsSlashStar (l : List Char) : Bool :=
  match l.reverse with
  | '*' :: '/' :: _ => true
  | _ => false

/-- Modelled from the spec: watcher pattern matching, spec section 4.3
(the watcher registry is server-side code missing from src/).  A pattern
matches a mutated path P iff it equals P, is one of the match-everything
patterns, ends in '/' and P begins with it, or ends in "/*" and P begins
with the pattern minus the '*'. -/
def pattern_matches (pat P : String) : Bool :=
  pat = P ||
  pat = "*" || pat = "/" || pat = "/*" || pat = "" ||
  (endsWithSlash pat && listStarts pat.data P.data) ||
  (endsSlashStar pat.data && listStarts pat.data.dropLast P.data)

/-- A row of the broker's watcher registry: pattern, client id and the
cb/priv handles, spec section 4.3. -/
structure Subscription where
  pattern : String
  client : Nat
  cb : Nat
  priv : Nat
deriving DecidableEq

/-- Events observable during the broker's handling of one SET request:
a synchronous callback invocation on a watcher's client, the watcher's
acknowledgement, and the moment the SET reply unblocks the caller. -/
inductive Event
  | invoke (cb : Nat) (path : String) (priv : Nat) (value : Bytes)
  | acked (cb : Nat)
  | setReturns
deriving DecidableEq

/-- Modelled from the spec: the broker's SET fan-out, spec section 4.2
(server code missing from src/).  After updating the database the broker
delivers a synchronous notification to every matching watcher and collects
its acknowledgement, and only then does the SET reply unblock the caller. -/
def broker_set_trace (subs : List Subscription) (P : String) (V : Bytes) :
    List Event :=
  ((subs.filter (fun s => pattern_matches s.pattern P)).flatMap
      (fun s => [Event.invoke s.cb P s.priv V, Event.acked s.cb])) ++
    [Event.setReturns]

/-- Modelled from the spec: the broker stores the cb and priv handles of a
watch registration verbatim and returns them verbatim in the notification
message it sends for a matching SET, spec section 6. -/
def broker_notify (reg : WatchReg) (P : String) (V : Bytes) : WatchMsg :=
  ⟨P, reg.id, reg.cb, reg.priv, V⟩

/-- Number of occurrences of an event in a trace. -/
def countEv (ev : Event) : List Event → Nat
  | [] => 0
  | e :: rest => (if e = ev then 1 else 0) + countEv ev rest

/-- Number of occurrences of a subscription row in a registry list. -/
def countSub (s : Subscription) : List Subscription → Nat
  | [] => 0
  | t :: rest => (if t = s then 1 else 0) + countSub s rest

/-! Helper lemmas about the modelled broker database. -/

theorem find?_filter_self_none (db : List (String × Bytes)) (p : String) :
    (db.filter (fun e => e.1 != p)).find? (fun e => e.1 == p) = none := by
  induction db with
  | nil => rfl
  | cons a t ih =>
      by_cases hp : a.1 = p
      · simp [List.filter_cons, hp, ih]
      · simp [List.filter_cons, List.find?, hp, ih]

theorem db_get_db_set (db : List (String × Bytes)) (p : String) (v : Bytes) :
    db_get (db_set db p v) p = v := by
  by_cases hv : v = []
  · subst hv
    unfold db_get db_set
    rw [if_pos rfl, find?_filter_self_none]
  · unfold db_get db_set
    rw [if_neg hv, List.find?_cons_of_pos _ (by simp)]

/-- C8: when apteryx_get is called with a path that does not begin with
'/', it returns false without touching the caller's *value and *size
output parameters: they keep their prior contents, because the code only
blanks them after the path validation passes, and no RPC is attempted. -/
theorem get_invalid_path_preserves_outputs (p : String) (pv : Option Bytes)
    (ps : Nat) (rpc : GetRpc) (h : startsWithSlash p = false) :
    apteryx_get p pv ps rpc = ⟨false, pv, ps, false⟩ := by
  unfold apteryx_get
  simp [h]

theorem get_invalid_path_preserves_outputs_witness :
    startsWithSlash "x" = false ∧
    apteryx_get "x" (some ['q']) 3 (GetRpc.reply ['z']) =
      ⟨false, some ['q'], 3, false⟩ :=
  ⟨by decide,
   get_invalid_path_preserves_outputs "x" (some ['q']) 3
     (GetRpc.reply ['z']) (by decide)⟩

/-- C4: when the GET reply carries a zero-length value, apteryx_get
leaves *value = NULL and *size = 0 and returns false; the reply for a
path deleted by a zero-length set is the same empty-bytes reply as for a
path that was never stored, so the two are indistinguishable at the
client. -/
theorem get_zero_length_reply (p : String) (pv : Option Bytes) (ps : Nat)
    (db : List (String × Bytes)) (h : startsWithSlash p = true) :
    apteryx_get p pv ps (GetRpc.reply []) = ⟨false, none, 0, true⟩ ∧
    apteryx_get p pv ps (GetRpc.reply (db_get (db_set db p []) p)) =
      apteryx_get p pv ps (GetRpc.reply (db_get [] p)) := by
  constructor
  · unfold apteryx_get handle_get_response
    simp [h]
  · rw [db_get_db_set]
    exact rfl

theorem get_zero_length_reply_witness :
    startsWithSlash "/e" = true ∧
    (apteryx_get "/e" (some ['q']) 3 (GetRpc.reply []) =
       ⟨false, none, 0, true⟩ ∧
     apteryx_get "/e" (some ['q']) 3
        (GetRpc.reply (db_get (db_set [("/e", ['v'])] "/e" []) "/e")) =
       apteryx_get "/e" (some ['q']) 3 (GetRpc.reply (db_get [] "/e"))) :=
  ⟨by decide,
   get_zero_length_reply "/e" (some ['q']) 3 [("/e", ['v'])] (by decide)⟩

/-- C2 counterexample: the special path "/" is not rejected by
apteryx_set, apteryx_get, apteryx_prune or apteryx_provide: each passes
the client-side path check (which only requires a leading '/'), reaches
the RPC, and with a responding broker set, prune and provide return
true. -/
theorem special_root_not_rejected_cex :
    (apteryx_set "/" ['x'] OkRpc.ok).ret = true ∧
    (apteryx_set "/" ['x'] OkRpc.ok).reachedRpc = true ∧
    (apteryx_get "/" none 0 (GetRpc.reply ['x'])).ret = true ∧
    (apteryx_prune "/" OkRpc.ok).ret = true ∧
    (apteryx_provide "/" 1 0 OkRpc.ok).ret = true := by decide

/-- C2 amended: each of "", "/", "*", "/*" is accepted by apteryx_search
(normalized to the empty root prefix) and by apteryx_watch (normalized to
the match-everything pattern "/*"); apteryx_set, apteryx_get,
apteryx_prune and apteryx_provide reject "" and "*" with a failure return
before any RPC, but "/" and "/*" pass their client-side checks (which
only require a leading '/') and proceed to the RPC. -/
theorem special_root_normalization :
    (apteryx_search_validate (some "") = SearchCheck.proceed "" ∧
     apteryx_search_validate (some "/") = SearchCheck.proceed "" ∧
     apteryx_search_validate (some "*") = SearchCheck.proceed "" ∧
     apteryx_search_validate (some "/*") = SearchCheck.proceed "") ∧
    ((apteryx_watch (some "") 1 0 7 OkRpc.ok).sent = some ⟨"/*", 7, 1, 0⟩ ∧
     (apteryx_watch (some "/") 1 0 7 OkRpc.ok).sent = some ⟨"/*", 7, 1, 0⟩ ∧
     (apteryx_watch (some "*") 1 0 7 OkRpc.ok).sent = some ⟨"/*", 7, 1, 0⟩ ∧
     (apteryx_watch (some "/*") 1 0 7 OkRpc.ok).sent = some ⟨"/*", 7, 1, 0⟩) ∧
    (apteryx_set "" ['x'] OkRpc.ok = ⟨false, false⟩ ∧
     apteryx_set "*" ['x'] OkRpc.ok = ⟨false, false⟩ ∧
     apteryx_get "" none 0 (GetRpc.reply ['x']) = ⟨false, none, 0, false⟩ ∧
     apteryx_get "*" none 0 (GetRpc.reply ['x']) = ⟨false, none, 0, false⟩ ∧
     apteryx_prune "" OkRpc.ok = ⟨false, false⟩ ∧
     apteryx_prune "*" OkRpc.ok = ⟨false, false⟩ ∧
     apteryx_provide "" 1 0 OkRpc.ok = ⟨false, false⟩ ∧
     apteryx_provide "*" 1 0 OkRpc.ok = ⟨false, false⟩) ∧
    (apteryx_set "/" ['x'] OkRpc.ok = ⟨true, true⟩ ∧
     apteryx_set "/*" ['x'] OkRpc.ok = ⟨true, true⟩ ∧
     apteryx_prune "/" OkRpc.ok = ⟨true, true⟩ ∧
     apteryx_prune "/*" OkRpc.ok = ⟨true, true⟩ ∧
     apteryx_provide "/" 1 0 OkRpc.ok = ⟨true, true⟩ ∧
     apteryx_provide "/*" 1 0 OkRpc.ok = ⟨true, true⟩ ∧
     (apteryx_get "/" none 0 (GetRpc.reply ['x'])).reachedRpc = true ∧
     (apteryx_get "/*" none 0 (GetRpc.reply ['x'])).reachedRpc = true) := by
  decide

/-- C3 counterexample: the path "/a//b" contains "//", yet apteryx_set
does not reject it: the call passes the client-side check, performs the
RPC round-trip, and returns true when the broker acknowledges. -/
theorem invalid_path_criteria_cex :
    apteryx_set "/a//b" ['x'] OkRpc.ok = ⟨true, true⟩ := by decide

/-- C3 amended: set, get, prune and provide reject exactly the paths that
do not start with '/' (which includes the empty string), with a failure
return and no RPC; watch does the same after normalizing the special root
forms; only search additionally rejects prefixes that do not end in '/'
or that contain "//".  The "//" and trailing-'/' criteria are not checked
by set, get, prune, provide or watch. -/
theorem invalid_path_rejected (p q : String) (v : Bytes)
    (hp : startsWithSlash p = false)
    (hqroot : isRootForm q = false)
    (hq : startsWithSlash q = false ∨ endsWithSlash q = false ∨
          hasDoubleSlash q.data = true) :
    apteryx_set p v OkRpc.ok = ⟨false, false⟩ ∧
    apteryx_get p none 0 (GetRpc.reply v) = ⟨false, none, 0, false⟩ ∧
    apteryx_prune p OkRpc.ok = ⟨false, false⟩ ∧
    apteryx_provide p 1 0 OkRpc.ok = ⟨false, false⟩ ∧
    (isRootForm p = false →
      apteryx_watch (some p) 1 0 7 OkRpc.ok = ⟨false, false, none⟩) ∧
    apteryx_search_validate (some q) = SearchCheck.reject := by
  refine ⟨?_, ?_, ?_, ?_, ?_, ?_⟩
  · unfold apteryx_set; simp [hp]
  · unfold apteryx_get; simp [hp]
  · unfold apteryx_prune; simp [hp]
  · unfold apteryx_provide; simp [hp]
  · intro hroot
    unfold apteryx_watch
    simp [hroot, hp]
  · unfold apteryx_search_validate
    rcases hq with h | h | h <;> simp [hqroot, h]

theorem invalid_path_rejected_witness :
    apteryx_set "a" ['x'] OkRpc.ok = ⟨false, false⟩ ∧
    apteryx_get "a" none 0 (GetRpc.reply ['x']) = ⟨false, none, 0, false⟩ ∧
    apteryx_prune "a" OkRpc.ok = ⟨false, false⟩ ∧
    apteryx_watch (some "a") 1 0 7 OkRpc.ok = ⟨false, false, none⟩ ∧
    apteryx_search_validate (some "/a//b/") = SearchCheck.reject := by
  have h := invalid_path_rejected "a" "/a//b/" ['x'] (by decide) (by decide)
    (by decide)
  exact ⟨h.1, h.2.1, h.2.2.1, h.2.2.2.2.1 (by decide), h.2.2.2.2.2⟩

/-- C1: for every valid path P and byte string V, after apteryx_set(P, V)
succeeds, apteryx_get(P) observes exactly V: the GET reply carries the
bytes the broker stored for P, and the client's output parameters yield
the same bytes and the same length, including the edge case of a
zero-length V, where the deletion makes get yield empty bytes of length
0.  The broker database is modelled from the spec (no provider, no
intervening writer). -/
theorem set_get_round_trip (db : List (String × Bytes)) (p : String)
    (V : Bytes) (h : startsWithSlash p = true) :
    (apteryx_set p V OkRpc.ok).ret = true ∧
    (apteryx_get p none 0
        (GetRpc.reply (db_get (db_set db p V) p))).value.getD [] = V ∧
    (apteryx_get p none 0
        (GetRpc.reply (db_get (db_set db p V) p))).size = V.length := by
  rw [db_get_db_set]
  refine ⟨?_, ?_, ?_⟩
  · unfold apteryx_set; simp [h]
  all_goals
    unfold apteryx_get handle_get_response
    by_cases hV : V = [] <;> simp [h, hV]

theorem set_get_round_trip_witness :
    ((apteryx_set "/a" ['x'] OkRpc.ok).ret = true ∧
     (apteryx_get "/a" none 0
        (GetRpc.reply (db_get (db_set [] "/a" ['x']) "/a"))).value.getD []
       = ['x'] ∧
     (apteryx_get "/a" none 0
        (GetRpc.reply (db_get (db_set [] "/a" ['x']) "/a"))).size
       = (['x'] : Bytes).length) ∧
    ((apteryx_set "/a" [] OkRpc.ok).ret = true ∧
     (apteryx_get "/a" none 0
        (GetRpc.reply (db_get (db_set [] "/a" []) "/a"))).value.getD []
       = [] ∧
     (apteryx_get "/a" none 0
        (GetRpc.reply (db_get (db_set [] "/a" []) "/a"))).size
       = ([] : Bytes).length) :=
  ⟨set_get_round_trip [] "/a" ['x'] (by decide),
   set_get_round_trip [] "/a" [] (by decide)⟩

/-- C6: apteryx_shutdown returns false exactly when the init reference
count is not positive; otherwise it decrements the count and returns
true; and the teardown of the client listener thread happens exactly on
the transition from reference count 1 to 0 — a shutdown that leaves other
users returns true and leaves the listener thread's state untouched. -/
theorem shutdown_refcount_lifecycle (s : ClientState) :
    ((apteryx_shutdown s).ret = true ↔ 0 < s.ref_count) ∧
    ((apteryx_shutdown s).stoppedListener = true ↔ s.ref_count = 1) ∧
    ((apteryx_shutdown s).state.ref_count =
      if 0 < s.ref_count then s.ref_count - 1 else s.ref_count) ∧
    ((apteryx_shutdown s).state.thread_running =
      (s.thread_running && !(decide (s.ref_count = 1)))) := by
  unfold apteryx_shutdown
  by_cases h0 : s.ref_count ≤ 0
  · have h1 : ¬ (0 < s.ref_count) := by omega
    have h2 : s.ref_count ≠ 1 := by omega
    simp [h0, h1, h2]
  · have h1 : 0 < s.ref_count := by omega
    by_cases h2 : s.ref_count - 1 > 0
    · have h3 : s.ref_count ≠ 1 := by omega
      simp [h0, h2, h1, h3]
    · have h3 : s.ref_count = 1 := by omega
      simp [h0, h2, h1, h3]

theorem shutdown_refcount_lifecycle_witness :
    (apteryx_shutdown ⟨1, true, false⟩).stoppedListener = true ∧
    (apteryx_shutdown ⟨2, true, false⟩).ret = true ∧
    (apteryx_shutdown ⟨0, true, false⟩).ret = false :=
  ⟨((shutdown_refcount_lifecycle ⟨1, true, false⟩).2.1).mpr (by decide),
   ((shutdown_refcount_lifecycle ⟨2, true, false⟩).1).mpr (by decide),
   by
     have h := ((shutdown_refcount_lifecycle ⟨0, true, false⟩).1)
     simp only [show ¬ ((0 : Int) < 0) by decide, iff_false] at h
     exact Bool.not_eq_true _ ▸ (Bool.eq_false_iff.mpr (fun hc => h (hc ▸ rfl)))⟩

theorem applyOp_debug (s : ClientState) (op : LibOp) (h : s.debug = true) :
    (applyOp s op).debug = true := by
  cases op with
  | opInit d => simp [applyOp, apteryx_init, h]
  | opShutdown =>
      unfold applyOp apteryx_shutdown
      by_cases h0 : s.ref_count ≤ 0
      · simp [h0, h]
      · by_cases h2 : s.ref_count - 1 > 0 <;> simp [h0, h2, h]

theorem applyOps_debug (s : ClientState) (ops : List LibOp)
    (h : s.debug = true) : (applyOps s ops).debug = true := by
  induction ops generalizing s with
  | nil => exact h
  | cons op rest ih => exact ih (applyOp s op) (applyOp_debug s op h)

/-- C9: apteryx_init returns true for every argument and every prior
state, and the process-wide debug flag is monotone: each init call ORs
its argument into the flag, shutdown leaves the flag untouched, and no
sequence of init/shutdown calls can clear it once it is true. -/
theorem init_returns_true_debug_monotone (d : Bool) (s : ClientState)
    (ops : List LibOp) (h : s.debug = true) :
    (apteryx_init d s).1 = true ∧
    (apteryx_init d s).2.debug = (s.debug || d) ∧
    (apteryx_shutdown s).state.debug = s.debug ∧
    (applyOps s ops).debug = true := by
  refine ⟨rfl, rfl, ?_, applyOps_debug s ops h⟩
  unfold apteryx_shutdown
  by_cases h0 : s.ref_count ≤ 0
  · simp [h0]
  · by_cases h2 : s.ref_count - 1 > 0 <;> simp [h0, h2]

theorem init_returns_true_debug_monotone_witness :
    (apteryx_init false ⟨0, false, true⟩).1 = true ∧
    (apteryx_init false ⟨0, false, true⟩).2.debug =
      ((⟨0, false, true⟩ : ClientState).debug || false) ∧
    (apteryx_shutdown ⟨0, false, true⟩).state.debug =
      (⟨0, false, true⟩ : ClientState).debug ∧
    (applyOps ⟨0, false, true⟩ [LibOp.opInit false, LibOp.opShutdown]).debug
      = true :=
  init_returns_true_debug_monotone false ⟨0, false, true⟩
    [LibOp.opInit false, LibOp.opShutdown] (by decide)

/-- C10: apteryx_get_int returns -1 whenever the underlying get fails or
yields no value — unreachable broker, no response, an error reply, an
absent path (empty-bytes reply), or an invalid path all give -1 — and a
stored value encoding -1 (the bytes apteryx_set_int writes for -1) also
reads back as -1, so it is indistinguishable from absence at the get_int
interface. -/
theorem get_int_absent_conflation (p : String) (rpc : GetRpc)
    (h : rpc = GetRpc.connFail ∨ rpc = GetRpc.noResponse ∨
         rpc = GetRpc.replyError ∨ rpc = GetRpc.reply []) :
    apteryx_get_int p rpc = -1 ∧
    apteryx_get_int p (GetRpc.reply (int_encode (-1))) = -1 := by
  have hlen : (int_encode (-1)).length ≠ 0 := by decide
  have hval : atoi (int_encode (-1)) = -1 := by decide
  constructor
  · unfold apteryx_get_int apteryx_get handle_get_response
    by_cases hsw : startsWithSlash p = false
    · simp [hsw]
    · rcases h with h | h | h | h <;> subst h <;> simp [hsw]
  · unfold apteryx_get_int apteryx_get handle_get_response
    by_cases hsw : startsWithSlash p = false
    · simp [hsw]
    · simp [hsw, hlen, hval]

theorem get_int_absent_conflation_witness :
    apteryx_get_int "/c" GetRpc.connFail = -1 ∧
    apteryx_get_int "/c" (GetRpc.reply (int_encode (-1))) = -1 :=
  get_int_absent_conflation "/c" GetRpc.connFail (Or.inl rfl)

/-- C7: the cb and priv handles round-trip verbatim: apteryx_watch places
them unchanged in the registration message, the broker (modelled from the
spec) stores and echoes them unchanged in the notification message, and
the client-side dispatcher apteryx__watch invokes the callback with
exactly the message's path, priv and value bytes — a zero-length value is
delivered as a NULL pointer with size 0. -/
theorem watch_callback_verbatim (pat : String) (cb priv pid : Nat)
    (P : String) (V : Bytes) (hcb : cb ≠ 0)
    (hp : startsWithSlash pat = true) :
    ∃ reg : WatchReg,
      (apteryx_watch (some pat) cb priv pid OkRpc.ok).sent = some reg ∧
      reg.cb = cb ∧ reg.priv = priv ∧
      apteryx__watch (broker_notify reg P V) =
        some ⟨P, priv, if V.length ≠ 0 then some V else none,
              if V.length ≠ 0 then V.length else 0⟩ := by
  have hcall : ∀ reg : WatchReg, reg.cb = cb → reg.priv = priv →
      apteryx__watch (broker_notify reg P V) =
        some ⟨P, priv, if V.length ≠ 0 then some V else none,
              if V.length ≠ 0 then V.length else 0⟩ := by
    intro reg hc hv
    unfold apteryx__watch broker_notify
    by_cases hV : V.length ≠ 0 <;> simp [hc, hv, hcb, hV]
  unfold apteryx_watch
  by_cases hroot : isRootForm pat = true
  · have hstar : startsWithSlash "/*" = true := by decide
    refine ⟨⟨"/*", pid, cb, priv⟩, ?_, rfl, rfl, hcall _ rfl rfl⟩
    simp [hroot, hstar]
  · refine ⟨⟨pat, pid, cb, priv⟩, ?_, rfl, rfl, hcall _ rfl rfl⟩
    simp [hroot, hp]

theorem watch_callback_verbatim_witness :
    (∃ reg : WatchReg,
      (apteryx_watch (some "/z/*") 1 2 7 OkRpc.ok).sent = some reg ∧
      reg.cb = 1 ∧ reg.priv = 2 ∧
      apteryx__watch (broker_notify reg "/z/state" ['d']) =
        some ⟨"/z/state", 2,
              if (['d'] : Bytes).length ≠ 0 then some ['d'] else none,
              if (['d'] : Bytes).length ≠ 0 then (['d'] : Bytes).length
              else 0⟩) ∧
    (∃ reg : WatchReg,
      (apteryx_watch (some "/z/*") 1 2 7 OkRpc.ok).sent = some reg ∧
      reg.cb = 1 ∧ reg.priv = 2 ∧
      apteryx__watch (broker_notify reg "/z/state" []) =
        some ⟨"/z/state", 2,
              if ([] : Bytes).length ≠ 0 then some [] else none,
              if ([] : Bytes).length ≠ 0 then ([] : Bytes).length
              else 0⟩) :=
  ⟨watch_callback_verbatim "/z/*" 1 2 7 "/z/state" ['d'] (by decide)
     (by decide),
   watch_callback_verbatim "/z/*" 1 2 7 "/z/state" [] (by decide)
     (by decide)⟩

/-! Helper lemmas for the broker SET fan-out trace. -/

theorem countEv_append (ev : Event) (l₁ l₂ : List Event) :
    countEv ev (l₁ ++ l₂) = countEv ev l₁ + countEv ev l₂ := by
  induction l₁ with
  | nil => simp [countEv]
  | cons e t ih => simp [countEv, ih, Nat.add_assoc]

theorem countEv_flatMap (P : String) (V : Bytes) (s : Subscription) :
    ∀ l : List Subscription, (∀ t ∈ l, t.cb = s.cb → t = s) →
      countEv (Event.invoke s.cb P s.priv V)
        (l.flatMap
          (fun t => [Event.invoke t.cb P t.priv V, Event.acked t.cb])) =
      countSub s l := by
  intro l
  induction l with
  | nil => intro _; rfl
  | cons a t ih =>
      intro hl
      have ht : ∀ u ∈ t, u.cb = s.cb → u = s :=
        fun u hu => hl u (List.mem_cons_of_mem a hu)
      rw [List.flatMap_cons, countEv_append, ih ht]
      by_cases ha : a = s
      · subst ha
        simp [countEv, countSub, Nat.add_comm]
      · have hcbne : a.cb ≠ s.cb :=
          fun hc => ha (hl a (List.mem_cons_self a t) hc)
        have hev : Event.invoke a.cb P a.priv V ≠
            Event.invoke s.cb P s.priv V := by
          intro he
          exact hcbne (by injection he)
        simp [countEv, countSub, ha, hev]

theorem countSub_filter (s : Subscription) (m : Subscription → Bool)
    (hm : m s = true) :
    ∀ l : List Subscription, countSub s (l.filter m) = countSub s l := by
  intro l
  induction l with
  | nil => rfl
  | cons a t ih =>
      by_cases ha : a = s
      · subst ha
        simp [List.filter_cons, hm, countSub, ih]
      · by_cases hma : m a = true <;>
          simp [List.filter_cons, hma, countSub, ha, ih]

theorem countSub_pos_mem (s : Subscription) :
    ∀ l : List Subscription, 0 < countSub s l → s ∈ l := by
  intro l
  induction l with
  | nil => intro h; simp [countSub] at h
  | cons a t ih =>
      intro h
      by_cases ha : a = s
      · exact ha ▸ List.mem_cons_self a t
      · simp [countSub, ha] at h
        exact List.mem_cons_of_mem a (ih h)

/-- C5: in the modelled broker SET fan-out (spec sections 4.2 and 4.3;
the broker is not part of src/), a subscription registered exactly once
whose pattern matches the mutated path P has its callback invoked exactly
once with (P, priv, V); the invocation and its acknowledgement both occur
strictly before the event that unblocks the caller of SET, which is the
last event of the trace.  The hypothesis that cb identifies the
subscription reflects the registry keying of spec section 4.3. -/
theorem set_notifies_watcher_before_return (subs : List Subscription)
    (s : Subscription) (P : String) (V : Bytes)
    (hcount : countSub s subs = 1)
    (hkey : ∀ t ∈ subs, t.cb = s.cb → t = s)
    (hmatch : pattern_matches s.pattern P = true) :
    countEv (Event.invoke s.cb P s.priv V) (broker_set_trace subs P V)
      = 1 ∧
    (broker_set_trace subs P V).getLast? = some Event.setReturns ∧
    Event.invoke s.cb P s.priv V ∈ (broker_set_trace subs P V).dropLast ∧
    Event.acked s.cb ∈ (broker_set_trace subs P V).dropLast := by
  have hmem : s ∈ subs := countSub_pos_mem s subs (by omega)
  have hmemf : s ∈ subs.filter (fun t => pattern_matches t.pattern P) :=
    List.mem_filter.mpr ⟨hmem, hmatch⟩
  have hkeyf : ∀ t ∈ subs.filter (fun t => pattern_matches t.pattern P),
      t.cb = s.cb → t = s :=
    fun t htf => hkey t (List.mem_of_mem_filter htf)
  unfold broker_set_trace
  rw [List.dropLast_concat, List.getLast?_concat]
  refine ⟨?_, rfl, ?_, ?_⟩
  · rw [countEv_append, countEv_flatMap P V s _ hkeyf,
      countSub_filter s _ hmatch, hcount]
    rfl
  · exact List.mem_flatMap.mpr ⟨s, hmemf, by simp⟩
  · exact List.mem_flatMap.mpr ⟨s, hmemf, by simp⟩

theorem set_notifies_watcher_before_return_witness :
    countEv (Event.invoke 1 "/a/b" 9 ['v'])
      (broker_set_trace [⟨"/a/*", 5, 1, 9⟩] "/a/b" ['v']) = 1 ∧
    (broker_set_trace [⟨"/a/*", 5, 1, 9⟩] "/a/b" ['v']).getLast?
      = some Event.setReturns ∧
    Event.invoke 1 "/a/b" 9 ['v']
      ∈ (broker_set_trace [⟨"/a/*", 5, 1, 9⟩] "/a/b" ['v']).dropLast ∧
    Event.acked 1
      ∈ (broker_set_trace [⟨"/a/*", 5, 1, 9⟩] "/a/b" ['v']).dropLast :=
  set_notifies_watcher_before_return [⟨"/a/*", 5, 1, 9⟩]
    ⟨"/a/*", 5, 1, 9⟩ "/a/b" ['v'] (by decide) (by decide) (by decide)

end Apteryx
